import Mathlib

/-! Overview.
Verification development for a browser-based MP4 compressor
(`src/index.js`, component `MP4Compressor`).

The file embeds, as executable Lean definitions:

* the option-to-argument translator inside `start` (lines 103–129 of the
  source), which maps the UI settings to the ffmpeg argument list;
* the `log` / `progress` event handlers (lines 48–63), which maintain the
  capped log buffer and the progress estimate;
* the UI-level job control (`onDrop`, `start`, the Start button's
  `disabled` attribute);
* the `finally` cleanup block of `start` (lines 140–147), embedded via a
  small state-and-exception semantics for the `try { … } catch {}` block.

Theorems about these definitions follow the definitions.
-/

namespace MP4Compressor

/-! Section: Settings (the UI option state feeding `start`)

`preset` ranges over the nine x264 presets offered by the select control,
`crf` is the slider value (the control constrains it to 18–28),
`resolution` over the four scale choices, `audioBitrate` over the six
offered bitrates, `copyMetadata` is the checkbox. -/

inductive Preset
  | ultrafast | superfast | veryfast | faster | fast
  | medium | slow | slower | veryslow
  deriving DecidableEq, Repr

def Preset.toArg : Preset → String
  | .ultrafast => "ultrafast"
  | .superfast => "superfast"
  | .veryfast => "veryfast"
  | .faster => "faster"
  | .fast => "fast"
  | .medium => "medium"
  | .slow => "slow"
  | .slower => "slower"
  | .veryslow => "veryslow"

inductive Resolution
  | source | r1080p | r720p | r480p
  deriving DecidableEq, Repr

/-- The height picked at line 118 of the source:
`resolution === "1080p" ? 1080 : resolution === "720p" ? 720 : 480`.
It is only consulted when `resolution ≠ source`. -/
def Resolution.height : Resolution → Nat
  | .r1080p => 1080
  | .r720p => 720
  | _ => 480

inductive AudioBitrate
  | k64 | k96 | k128 | k160 | k192 | k256
  deriving DecidableEq, Repr

def AudioBitrate.toArg : AudioBitrate → String
  | .k64 => "64k"
  | .k96 => "96k"
  | .k128 => "128k"
  | .k160 => "160k"
  | .k192 => "192k"
  | .k256 => "256k"

structure EncodeSettings where
  preset : Preset
  crf : Nat
  resolution : Resolution
  audioBitrate : AudioBitrate
  copyMetadata : Bool
  deriving DecidableEq, Repr

/-- The CRF slider is constrained to 18–28 (`min={18} max={28}` in the
source); the spec calls such a settings value valid. -/
def EncodeSettings.Valid (s : EncodeSettings) : Prop :=
  18 ≤ s.crf ∧ s.crf ≤ 28

/-! Section: The argument translator (lines 98–129 of the source) -/

def inputName : String := "input.mp4"

def outputName : String := "output.mp4"

/-- The argument list assembled by `start`, mirroring the sequence of
`args.push` calls at lines 103–129 of the source. -/
def buildArgs (s : EncodeSettings) : List String :=
  ["-i", inputName]
    ++ (if s.copyMetadata then
          ["-map_metadata", "0", "-movflags", "use_metadata_tags"]
        else [])
    ++ ["-c:v", "libx264", "-preset", s.preset.toArg, "-crf", toString s.crf]
    ++ (if s.resolution = .source then []
        else ["-vf", "scale=-2:" ++ toString s.resolution.height])
    ++ ["-c:a", "aac", "-b:a", s.audioBitrate.toArg]
    ++ ["-movflags", "+faststart"]
    ++ [outputName]

/-! Section: The encoding event handlers (lines 48–63 of the source)

The two subscriptions update two pieces of React state: `progress` (a JS
number, modelled as `ℚ`; a `NaN` payload is modelled as `none`) and
`logLines`. -/

/-- JavaScript `Math.round` on the finite values modelled here:
`⌊x + 1/2⌋` (round half toward positive infinity). -/
def jsRound (x : ℚ) : ℤ := ⌊x + 1 / 2⌋

/-- Does `/time=\d{2}:\d{2}:\d{2}/` match at the head of this character
list? -/
def timeStampAt : List Char → Bool
  | 't' :: 'i' :: 'm' :: 'e' :: '=' :: d1 :: d2 :: ':' :: d3 :: d4 :: ':' :: d5 :: d6 :: _ =>
      d1.isDigit && d2.isDigit && d3.isDigit && d4.isDigit && d5.isDigit && d6.isDigit
  | _ => false

/-- Does the pattern match at some position of the character list? -/
def hasTimeStampChars : List Char → Bool
  | [] => false
  | c :: cs => timeStampAt (c :: cs) || hasTimeStampChars cs

/-- The regex test `/time=\d{2}:\d{2}:\d{2}/.test(message)` (line 52). -/
def logHasTimeStamp (message : String) : Bool :=
  hasTimeStampChars message.data

/-- The two React states the event handlers update. -/
structure JobEventState where
  progress : ℚ
  logLines : List String
  deriving Repr, DecidableEq

/-- State at the beginning of a run: `start` does `setProgress(0)` and
`onDrop` has cleared the log (`setLogLines([])`). -/
def initialEventState : JobEventState := ⟨0, []⟩

/-- The log-buffer update `[...prev, message].slice(-200)` (lines 50, 55):
append, then keep only the last 200 entries. -/
def appendLog (buf : List String) (m : String) : List String :=
  let next := buf ++ [m]
  next.drop (next.length - 200)

/-- JavaScript `Math.min` on finite values: the smaller argument. -/
def jsMin (a b : ℚ) : ℚ := if a ≤ b then a else b

/-- The progress updater `(p) => (p < 95 ? p + 0.5 : p)` used by the
timestamp heuristic (line 53). -/
def nudge (p : ℚ) : ℚ := if p < 95 then p + 1 / 2 else p

/-- The `log` handler (lines 48–57): append the message to the capped
buffer and, when the message matches the timestamp pattern, nudge the
progress. -/
def onLog (st : JobEventState) (message : String) : JobEventState :=
  { progress :=
      if logHasTimeStamp message then nudge st.progress else st.progress,
    logLines := appendLog st.logLines message }

/-- The `progress` handler (lines 59–63):
`if (!Number.isNaN(progress)) setProgress(Math.min(100, Math.round(progress * 100)))`.
`none` models a `NaN` payload. -/
def onProgress (st : JobEventState) (payload : Option ℚ) : JobEventState :=
  match payload with
  | none => st
  | some r => { st with progress := jsMin 100 ((jsRound (r * 100) : ℤ) : ℚ) }

/-- An asynchronous event delivered by the encoder while a run is in
flight. -/
inductive EncodingEvent
  | log (message : String)
  | progress (payload : Option ℚ)
  deriving Repr, DecidableEq

def applyEvent (st : JobEventState) : EncodingEvent → JobEventState
  | .log m => onLog st m
  | .progress r => onProgress st r

/-- Apply a sequence of events in the order received (the source applies
them in delivery order, §5 of the spec). -/
def applyEvents (events : List EncodingEvent) (st : JobEventState) : JobEventState :=
  events.foldl applyEvent st

/-- The success path of `start` (lines 132–136): after `exec` resolves and
the output is read, `setProgress(100)`. -/
def onSuccess (st : JobEventState) : JobEventState := { st with progress := 100 }

/-- An explicit progress payload is well behaved when it is nonnegative
and small enough that `Math.round(payload * 100)` stays below 100
(`payload < 0.995`). -/
def payloadOk : EncodingEvent → Prop
  | .progress (some r) => 0 ≤ r ∧ jsRound (r * 100) ≤ 99
  | _ => True

/-! Section: UI job control (`onDrop`, `start`, the Start button) -/

/-- The component state relevant to job control.  `ffmpegRefSet` models
`ffmpegRef.current !== null` (set as soon as loading starts, line 46);
`ffmpegReady` is the `ffmpegReady` state (set only after the assets
loaded, line 74); `fileSelected` models `file !== null`; `hasOutput`
models `outputBlob !== null`. -/
structure AppState where
  ffmpegReady : Bool
  ffmpegRefSet : Bool
  fileSelected : Bool
  processing : Bool
  hasOutput : Bool
  progress : ℚ
  logLines : List String
  deriving Repr, DecidableEq

/-- The Start button's `disabled` attribute (line 321):
`!ffmpegReady || !file || processing`. -/
def startDisabled (st : AppState) : Bool :=
  !st.ffmpegReady || !st.fileSelected || st.processing

/-- The head of `start` (lines 91–95): the early-return guard
`if (!file || !ffmpegRef.current) return;`, then `setProcessing(true);
setOutputBlob(null); setProgress(0)`. -/
def startBody (st : AppState) : AppState :=
  if !st.fileSelected || !st.ffmpegRefSet then st
  else { st with processing := true, hasOutput := false, progress := 0 }

/-- A click on the Start button: the browser delivers the click to
`onClick={start}` only when the button is not disabled. -/
def clickStart (st : AppState) : AppState :=
  if startDisabled st then st else startBody st

/-- Model of `onDrop` (lines 84–89): picking a file sets it and resets the output,
the log and the progress. -/
def onDrop (st : AppState) : AppState :=
  { st with fileSelected := true, hasOutput := false,
            logLines := [], progress := 0 }

/-! Section: The cleanup block (lines 140–147)

The `finally` clause of `start` is
`try { await ffmpeg.deleteFile(inputName); await ffmpeg.deleteFile(outputName) } catch {}`.
It is embedded with a small state-and-exception semantics: the state
records the deletion attempts in order, `Except Unit` carries a raised
JS exception, `bindFs` is `await`-sequencing and `catchFs` is
`try/catch`. -/

def FsAction (α : Type) : Type := List String → Except Unit α × List String

def pureFs {α : Type} (a : α) : FsAction α := fun s => (.ok a, s)

def bindFs {α β : Type} (x : FsAction α) (f : α → FsAction β) : FsAction β :=
  fun s =>
    match x s with
    | (.ok a, s1) => f a s1
    | (.error e, s1) => (.error e, s1)

def catchFs {α : Type} (x : FsAction α) (h : Unit → FsAction α) : FsAction α :=
  fun s =>
    match x s with
    | (.ok a, s1) => (.ok a, s1)
    | (.error e, s1) => h e s1

/-- Embedding of `await ffmpeg.deleteFile(name)`: the attempt is recorded; the oracle
`ok` says whether the encoder's virtual FS deletion succeeds or raises for
this name. -/
def deleteFile (ok : String → Bool) (name : String) : FsAction Unit :=
  fun s => (if ok name then .ok () else .error (), s ++ [name])

/-- The guarded block of lines 143–146. -/
def cleanupBlock (ok : String → Bool) : FsAction Unit :=
  catchFs
    (bindFs (deleteFile ok inputName) (fun _ => deleteFile ok outputName))
    (fun _ => pureFs ())

/-- Outcome of the tail of `start` (lines 131–147). -/
structure FinishResult where
  alertShown : Bool
  processing : Bool
  cleanupResult : Except Unit Unit
  cleanupAttempts : List String
  deriving Repr

/-- The tail of `start`: on `exec` failure (`execOk = false`) the catch
shows the alert (line 139); the `finally` clause then runs the cleanup
block on both the done and the failed path and resets `processing`. -/
def finishJob (execOk : Bool) (ok : String → Bool) : FinishResult :=
  let c := cleanupBlock ok []
  { alertShown := !execOk, processing := false,
    cleanupResult := c.1, cleanupAttempts := c.2 }

/-! Section: Lemmas about the event machine -/

lemma applyEvents_cons (e : EncodingEvent) (es : List EncodingEvent)
    (st : JobEventState) :
    applyEvents (e :: es) st = applyEvents es (applyEvent st e) := rfl

lemma appendLog_length (buf : List String) (m : String) :
    (appendLog buf m).length = min (buf.length + 1) 200 := by
  simp only [appendLog, List.length_drop, List.length_append, List.length_singleton]
  omega

lemma onProgress_logLines (st : JobEventState) (r : Option ℚ) :
    (onProgress st r).logLines = st.logLines := by
  cases r <;> rfl

lemma applyEvents_logLines_le (events : List EncodingEvent) :
    ∀ st : JobEventState, st.logLines.length ≤ 200 →
      (applyEvents events st).logLines.length ≤ 200 := by
  induction events with
  | nil => exact fun _ h => h
  | cons e es ih =>
    intro st h
    rw [applyEvents_cons]
    apply ih
    cases e with
    | log m =>
      simp only [applyEvent, onLog]
      rw [appendLog_length]
      omega
    | progress r =>
      simp only [applyEvent]
      rw [onProgress_logLines]
      exact h

lemma applyEvent_progress_inv (st : JobEventState) (e : EncodingEvent)
    (he : payloadOk e) (h0 : 0 ≤ st.progress) (h1 : st.progress < 100) :
    0 ≤ (applyEvent st e).progress ∧ (applyEvent st e).progress < 100 := by
  cases e with
  | log m =>
    simp only [applyEvent, onLog, nudge]
    by_cases hm : logHasTimeStamp m
    · simp only [hm, if_true]
      by_cases hp : st.progress < 95
      · simp only [hp, if_true]
        constructor <;> linarith
      · simp only [hp, if_false]
        exact ⟨h0, h1⟩
    · simp only [hm, if_false]
      exact ⟨h0, h1⟩
  | progress r =>
    cases r with
    | none => exact ⟨h0, h1⟩
    | some q =>
      obtain ⟨hq0, hq99⟩ := he
      have hr0 : (0 : ℤ) ≤ jsRound (q * 100) := by
        apply Int.le_floor.mpr
        push_cast
        nlinarith
      have hr99 : ((jsRound (q * 100) : ℤ) : ℚ) ≤ 99 := by exact_mod_cast hq99
      have hr0q : (0 : ℚ) ≤ ((jsRound (q * 100) : ℤ) : ℚ) := by exact_mod_cast hr0
      simp only [applyEvent, onProgress, jsMin]
      by_cases hc : (100 : ℚ) ≤ ((jsRound (q * 100) : ℤ) : ℚ)
      · linarith
      · simp only [hc, if_false]
        constructor <;> [exact hr0q; linarith]

lemma applyEvents_progress_inv (events : List EncodingEvent) :
    ∀ st : JobEventState, (∀ e ∈ events, payloadOk e) →
      0 ≤ st.progress → st.progress < 100 →
      0 ≤ (applyEvents events st).progress ∧
        (applyEvents events st).progress < 100 := by
  induction events with
  | nil => exact fun _ _ h0 h1 => ⟨h0, h1⟩
  | cons e es ih =>
    intro st hev h0 h1
    rw [applyEvents_cons]
    obtain ⟨h0s, h1s⟩ :=
      applyEvent_progress_inv st e (hev e (List.mem_cons_self e es)) h0 h1
    exact ih _ (fun x hx => hev x (List.mem_cons_of_mem e hx)) h0s h1s

/-- Every reachable progress value is an integer multiple of one half:
explicit events store a rounded integer, the heuristic adds halves. -/
def HalfInt (p : ℚ) : Prop := ∃ k : ℤ, p = k / 2

lemma nudge_of_lt (p : ℚ) (h : p < 95) : nudge p = p + 1 / 2 := by
  simp [nudge, h]

lemma nudge_of_ge (p : ℚ) (h : ¬p < 95) : nudge p = p := by
  simp [nudge, h]

lemma applyEvent_halfInt (st : JobEventState) (e : EncodingEvent)
    (h : HalfInt st.progress) : HalfInt (applyEvent st e).progress := by
  obtain ⟨k, hk⟩ := h
  cases e with
  | log m =>
    simp only [applyEvent, onLog]
    by_cases hm : logHasTimeStamp m
    · simp only [hm, if_true]
      by_cases hp : st.progress < 95
      · refine ⟨k + 1, ?_⟩
        rw [nudge_of_lt _ hp, hk]
        push_cast
        ring
      · exact ⟨k, by rw [nudge_of_ge _ hp]; exact hk⟩
    · exact ⟨k, by simp only [hm, if_false]; exact hk⟩
  | progress r =>
    cases r with
    | none => exact ⟨k, hk⟩
    | some q =>
      simp only [applyEvent, onProgress, jsMin]
      by_cases hc : (100 : ℚ) ≤ ((jsRound (q * 100) : ℤ) : ℚ)
      · refine ⟨200, ?_⟩
        simp only [hc, if_true]
        norm_num
      · refine ⟨2 * jsRound (q * 100), ?_⟩
        simp only [hc, if_false]
        push_cast
        ring

lemma applyEvents_halfInt (events : List EncodingEvent) :
    ∀ st : JobEventState, HalfInt st.progress →
      HalfInt (applyEvents events st).progress := by
  induction events with
  | nil => exact fun _ h => h
  | cons e es ih =>
    intro st h
    rw [applyEvents_cons]
    exact ih _ (applyEvent_halfInt st e h)

lemma nudge_le (p : ℚ) (hp : HalfInt p) (h : p ≤ 95) :
    HalfInt (nudge p) ∧ nudge p ≤ 95 := by
  obtain ⟨k, hk⟩ := hp
  by_cases hlt : p < 95
  · have hk190 : (k : ℚ) < 190 := by
      subst hk
      linarith
    have hkZ : k < 190 := by exact_mod_cast hk190
    have hkq : (k : ℚ) ≤ 189 := by
      have : k ≤ 189 := by omega
      exact_mod_cast this
    constructor
    · refine ⟨k + 1, ?_⟩
      rw [nudge_of_lt _ hlt, hk]
      push_cast
      ring
    · rw [nudge_of_lt _ hlt, hk]
      linarith
  · rw [nudge_of_ge _ hlt]
    exact ⟨⟨k, hk⟩, h⟩

lemma nudge_iter_le (n : ℕ) :
    ∀ p : ℚ, HalfInt p → p ≤ 95 → nudge^[n] p ≤ 95 := by
  induction n with
  | zero => intro p _ h; simpa using h
  | succ k ih =>
    intro p hp h
    rw [Function.iterate_succ_apply]
    obtain ⟨hp2, h2⟩ := nudge_le p hp h
    exact ih (nudge p) hp2 h2

/-! Section: Token facts

The variable tokens of the argument list (the preset name, the CRF digits,
the audio bitrate) are never equal to any of the fixed flag tokens.  The
facts are stated at the `Bool` level (`==`-equations) so that they plug
directly into `simp only` rewriting of `List.count`. -/

/-- Recognizes a scale-filter value token: the source builds such tokens as
the string `scale=` followed by the width/height spec (line 120). -/
def isScaleFilter (t : String) : Bool :=
  t.data.take 6 == ['s', 'c', 'a', 'l', 'e', '=']

/-- The fixed flag/value tokens the claims talk about. -/
def flagToks : List String :=
  ["-c:v", "-preset", "-crf", "-c:a", "-b:a", "+faststart",
   "-map_metadata", "use_metadata_tags", "-vf",
   "scale=-2:1080", "scale=-2:720", "scale=-2:480"]

lemma preset_toArg_facts (p : Preset) :
    (∀ f ∈ flagToks, (p.toArg == f) = false) ∧
      isScaleFilter p.toArg = false := by
  cases p <;> decide

lemma crf_arg_facts (c : Nat) (h1 : 18 ≤ c) (h2 : c ≤ 28) :
    (∀ f ∈ flagToks, (toString c == f) = false) ∧
      isScaleFilter (toString c) = false := by
  interval_cases c <;> decide

lemma audio_toArg_facts (ab : AudioBitrate) :
    (∀ f ∈ flagToks, (ab.toArg == f) = false) ∧
      isScaleFilter ab.toArg = false := by
  cases ab <;> decide

/-! Section: C1: every fixed flag appears exactly once, in the fixed order,
with the output filename token last -/

/-- Claim C1: For every valid `EncodeSettings` value, the argument list built
by `start` contains the video codec flag, the preset flag, the quality
flag, the audio codec flag, the audio bitrate flag, and the fast-start
flag exactly once each; these unique occurrences appear in the fixed
relative order codec, preset, quality, audio codec, audio bitrate,
fast-start (stated as a `List.Sublist`); and the output filename token is
last. -/
theorem buildArgs_flags_once_and_ordered (s : EncodeSettings) (hv : s.Valid) :
    (buildArgs s).count "-c:v" = 1 ∧ (buildArgs s).count "-preset" = 1 ∧
    (buildArgs s).count "-crf" = 1 ∧ (buildArgs s).count "-c:a" = 1 ∧
    (buildArgs s).count "-b:a" = 1 ∧ (buildArgs s).count "+faststart" = 1 ∧
    List.Sublist ["-c:v", "-preset", "-crf", "-c:a", "-b:a", "+faststart"]
      (buildArgs s) ∧
    (buildArgs s).getLast? = some outputName := by
  obtain ⟨p, c, r, ab, m⟩ := s
  obtain ⟨hvl, hvr⟩ := hv
  have hP := (preset_toArg_facts p).1
  have hC := (crf_arg_facts c hvl hvr).1
  have hB := (audio_toArg_facts ab).1
  have p1 := hP "-c:v" (by decide)
  have p2 := hP "-preset" (by decide)
  have p3 := hP "-crf" (by decide)
  have p4 := hP "-c:a" (by decide)
  have p5 := hP "-b:a" (by decide)
  have p6 := hP "+faststart" (by decide)
  have q1 := hC "-c:v" (by decide)
  have q2 := hC "-preset" (by decide)
  have q3 := hC "-crf" (by decide)
  have q4 := hC "-c:a" (by decide)
  have q5 := hC "-b:a" (by decide)
  have q6 := hC "+faststart" (by decide)
  have a1 := hB "-c:v" (by decide)
  have a2 := hB "-preset" (by decide)
  have a3 := hB "-crf" (by decide)
  have a4 := hB "-c:a" (by decide)
  have a5 := hB "-b:a" (by decide)
  have a6 := hB "+faststart" (by decide)
  cases m <;> cases r
  case false.source =>
    have e : buildArgs ⟨p, c, .source, ab, false⟩ =
        ["-i", "input.mp4", "-c:v", "libx264", "-preset", p.toArg,
        "-crf", toString c, "-c:a", "aac", "-b:a", ab.toArg,
        "-movflags", "+faststart", "output.mp4"] := rfl
    rw [e]
    refine ⟨?_, ?_, ?_, ?_, ?_, ?_,
      .cons _ (.cons _ (.cons₂ _ (.cons _ (.cons₂ _ (.cons _ (.cons₂ _ (.cons _ (.cons₂ _ (.cons _ (.cons₂ _ (.cons _ (.cons _ (.cons₂ _ (.cons _ .slnil)))))))))))))), rfl⟩ <;>
    · simp only [List.count_cons, List.count_nil, p1, p2, p3, p4, p5, p6, q1, q2, q3, q4, q5, q6, a1, a2, a3, a4, a5, a6]
      decide
  case false.r1080p =>
    have e : buildArgs ⟨p, c, .r1080p, ab, false⟩ =
        ["-i", "input.mp4", "-c:v", "libx264", "-preset", p.toArg,
        "-crf", toString c, "-vf", "scale=-2:" ++ toString 1080, "-c:a", "aac",
        "-b:a", ab.toArg, "-movflags", "+faststart", "output.mp4"] := rfl
    rw [e]
    refine ⟨?_, ?_, ?_, ?_, ?_, ?_,
      .cons _ (.cons _ (.cons₂ _ (.cons _ (.cons₂ _ (.cons _ (.cons₂ _ (.cons _ (.cons _ (.cons _ (.cons₂ _ (.cons _ (.cons₂ _ (.cons _ (.cons _ (.cons₂ _ (.cons _ .slnil)))))))))))))))), rfl⟩ <;>
    · simp only [List.count_cons, List.count_nil, p1, p2, p3, p4, p5, p6, q1, q2, q3, q4, q5, q6, a1, a2, a3, a4, a5, a6]
      decide
  case false.r720p =>
    have e : buildArgs ⟨p, c, .r720p, ab, false⟩ =
        ["-i", "input.mp4", "-c:v", "libx264", "-preset", p.toArg,
        "-crf", toString c, "-vf", "scale=-2:" ++ toString 720, "-c:a", "aac",
        "-b:a", ab.toArg, "-movflags", "+faststart", "output.mp4"] := rfl
    rw [e]
    refine ⟨?_, ?_, ?_, ?_, ?_, ?_,
      .cons _ (.cons _ (.cons₂ _ (.cons _ (.cons₂ _ (.cons _ (.cons₂ _ (.cons _ (.cons _ (.cons _ (.cons₂ _ (.cons _ (.cons₂ _ (.cons _ (.cons _ (.cons₂ _ (.cons _ .slnil)))))))))))))))), rfl⟩ <;>
    · simp only [List.count_cons, List.count_nil, p1, p2, p3, p4, p5, p6, q1, q2, q3, q4, q5, q6, a1, a2, a3, a4, a5, a6]
      decide
  case false.r480p =>
    have e : buildArgs ⟨p, c, .r480p, ab, false⟩ =
        ["-i", "input.mp4", "-c:v", "libx264", "-preset", p.toArg,
        "-crf", toString c, "-vf", "scale=-2:" ++ toString 480, "-c:a", "aac",
        "-b:a", ab.toArg, "-movflags", "+faststart", "output.mp4"] := rfl
    rw [e]
    refine ⟨?_, ?_, ?_, ?_, ?_, ?_,
      .cons _ (.cons _ (.cons₂ _ (.cons _ (.cons₂ _ (.cons _ (.cons₂ _ (.cons _ (.cons _ (.cons _ (.cons₂ _ (.cons _ (.cons₂ _ (.cons _ (.cons _ (.cons₂ _ (.cons _ .slnil)))))))))))))))), rfl⟩ <;>
    · simp only [List.count_cons, List.count_nil, p1, p2, p3, p4, p5, p6, q1, q2, q3, q4, q5, q6, a1, a2, a3, a4, a5, a6]
      decide
  case true.source =>
    have e : buildArgs ⟨p, c, .source, ab, true⟩ =
        ["-i", "input.mp4", "-map_metadata", "0", "-movflags", "use_metadata_tags",
        "-c:v", "libx264", "-preset", p.toArg, "-crf", toString c,
        "-c:a", "aac", "-b:a", ab.toArg, "-movflags", "+faststart",
        "output.mp4"] := rfl
    rw [e]
    refine ⟨?_, ?_, ?_, ?_, ?_, ?_,
      .cons _ (.cons _ (.cons _ (.cons _ (.cons _ (.cons _ (.cons₂ _ (.cons _ (.cons₂ _ (.cons _ (.cons₂ _ (.cons _ (.cons₂ _ (.cons _ (.cons₂ _ (.cons _ (.cons _ (.cons₂ _ (.cons _ .slnil)))))))))))))))))), rfl⟩ <;>
    · simp only [List.count_cons, List.count_nil, p1, p2, p3, p4, p5, p6, q1, q2, q3, q4, q5, q6, a1, a2, a3, a4, a5, a6]
      decide
  case true.r1080p =>
    have e : buildArgs ⟨p, c, .r1080p, ab, true⟩ =
        ["-i", "input.mp4", "-map_metadata", "0", "-movflags", "use_metadata_tags",
        "-c:v", "libx264", "-preset", p.toArg, "-crf", toString c,
        "-vf", "scale=-2:" ++ toString 1080, "-c:a", "aac", "-b:a", ab.toArg,
        "-movflags", "+faststart", "output.mp4"] := rfl
    rw [e]
    refine ⟨?_, ?_, ?_, ?_, ?_, ?_,
      .cons _ (.cons _ (.cons _ (.cons _ (.cons _ (.cons _ (.cons₂ _ (.cons _ (.cons₂ _ (.cons _ (.cons₂ _ (.cons _ (.cons _ (.cons _ (.cons₂ _ (.cons _ (.cons₂ _ (.cons _ (.cons _ (.cons₂ _ (.cons _ .slnil)))))))))))))))))))), rfl⟩ <;>
    · simp only [List.count_cons, List.count_nil, p1, p2, p3, p4, p5, p6, q1, q2, q3, q4, q5, q6, a1, a2, a3, a4, a5, a6]
      decide
  case true.r720p =>
    have e : buildArgs ⟨p, c, .r720p, ab, true⟩ =
        ["-i", "input.mp4", "-map_metadata", "0", "-movflags", "use_metadata_tags",
        "-c:v", "libx264", "-preset", p.toArg, "-crf", toString c,
        "-vf", "scale=-2:" ++ toString 720, "-c:a", "aac", "-b:a", ab.toArg,
        "-movflags", "+faststart", "output.mp4"] := rfl
    rw [e]
    refine ⟨?_, ?_, ?_, ?_, ?_, ?_,
      .cons _ (.cons _ (.cons _ (.cons _ (.cons _ (.cons _ (.cons₂ _ (.cons _ (.cons₂ _ (.cons _ (.cons₂ _ (.cons _ (.cons _ (.cons _ (.cons₂ _ (.cons _ (.cons₂ _ (.cons _ (.cons _ (.cons₂ _ (.cons _ .slnil)))))))))))))))))))), rfl⟩ <;>
    · simp only [List.count_cons, List.count_nil, p1, p2, p3, p4, p5, p6, q1, q2, q3, q4, q5, q6, a1, a2, a3, a4, a5, a6]
      decide
  case true.r480p =>
    have e : buildArgs ⟨p, c, .r480p, ab, true⟩ =
        ["-i", "input.mp4", "-map_metadata", "0", "-movflags", "use_metadata_tags",
        "-c:v", "libx264", "-preset", p.toArg, "-crf", toString c,
        "-vf", "scale=-2:" ++ toString 480, "-c:a", "aac", "-b:a", ab.toArg,
        "-movflags", "+faststart", "output.mp4"] := rfl
    rw [e]
    refine ⟨?_, ?_, ?_, ?_, ?_, ?_,
      .cons _ (.cons _ (.cons _ (.cons _ (.cons _ (.cons _ (.cons₂ _ (.cons _ (.cons₂ _ (.cons _ (.cons₂ _ (.cons _ (.cons _ (.cons _ (.cons₂ _ (.cons _ (.cons₂ _ (.cons _ (.cons _ (.cons₂ _ (.cons _ .slnil)))))))))))))))))))), rfl⟩ <;>
    · simp only [List.count_cons, List.count_nil, p1, p2, p3, p4, p5, p6, q1, q2, q3, q4, q5, q6, a1, a2, a3, a4, a5, a6]
      decide

/-! Section: C2: placement and presence of the metadata-copy flags -/

/-- Claim C2: For every valid `EncodeSettings` value: if `preserveMetadata`
(`copyMetadata` in the source) is true, the metadata-copy flags
`-map_metadata` and `use_metadata_tags` each appear exactly once and
before the (unique) video codec flag; if it is false, no metadata-copy
flag appears anywhere in the list. -/
theorem buildArgs_metadata_placement (s : EncodeSettings) (hv : s.Valid) :
    (s.copyMetadata = true →
      (buildArgs s).count "-map_metadata" = 1 ∧
      (buildArgs s).count "use_metadata_tags" = 1 ∧
      (buildArgs s).count "-c:v" = 1 ∧
      List.Sublist ["-map_metadata", "use_metadata_tags", "-c:v"]
        (buildArgs s)) ∧
    (s.copyMetadata = false →
      "-map_metadata" ∉ buildArgs s ∧ "use_metadata_tags" ∉ buildArgs s) := by
  obtain ⟨p, c, r, ab, m⟩ := s
  obtain ⟨hvl, hvr⟩ := hv
  have hP := (preset_toArg_facts p).1
  have hC := (crf_arg_facts c hvl hvr).1
  have hB := (audio_toArg_facts ab).1
  have p1 := hP "-c:v" (by decide)
  have p7 := hP "-map_metadata" (by decide)
  have p8 := hP "use_metadata_tags" (by decide)
  have q1 := hC "-c:v" (by decide)
  have q7 := hC "-map_metadata" (by decide)
  have q8 := hC "use_metadata_tags" (by decide)
  have a1 := hB "-c:v" (by decide)
  have a7 := hB "-map_metadata" (by decide)
  have a8 := hB "use_metadata_tags" (by decide)
  cases m <;> cases r
  case false.source =>
    have e : buildArgs ⟨p, c, .source, ab, false⟩ =
        ["-i", "input.mp4", "-c:v", "libx264", "-preset", p.toArg,
        "-crf", toString c, "-c:a", "aac", "-b:a", ab.toArg,
        "-movflags", "+faststart", "output.mp4"] := rfl
    rw [e]
    refine ⟨fun h => (nomatch h),
      fun _ => ⟨List.count_eq_zero.mp ?_, List.count_eq_zero.mp ?_⟩⟩ <;>
    · simp only [List.count_cons, List.count_nil, p7, p8, q7, q8, a7, a8]
      decide
  case false.r1080p =>
    have e : buildArgs ⟨p, c, .r1080p, ab, false⟩ =
        ["-i", "input.mp4", "-c:v", "libx264", "-preset", p.toArg,
        "-crf", toString c, "-vf", "scale=-2:" ++ toString (1080 : Nat), "-c:a", "aac",
        "-b:a", ab.toArg, "-movflags", "+faststart", "output.mp4"] := rfl
    rw [e]
    refine ⟨fun h => (nomatch h),
      fun _ => ⟨List.count_eq_zero.mp ?_, List.count_eq_zero.mp ?_⟩⟩ <;>
    · simp only [List.count_cons, List.count_nil, p7, p8, q7, q8, a7, a8]
      decide
  case false.r720p =>
    have e : buildArgs ⟨p, c, .r720p, ab, false⟩ =
        ["-i", "input.mp4", "-c:v", "libx264", "-preset", p.toArg,
        "-crf", toString c, "-vf", "scale=-2:" ++ toString (720 : Nat), "-c:a", "aac",
        "-b:a", ab.toArg, "-movflags", "+faststart", "output.mp4"] := rfl
    rw [e]
    refine ⟨fun h => (nomatch h),
      fun _ => ⟨List.count_eq_zero.mp ?_, List.count_eq_zero.mp ?_⟩⟩ <;>
    · simp only [List.count_cons, List.count_nil, p7, p8, q7, q8, a7, a8]
      decide
  case false.r480p =>
    have e : buildArgs ⟨p, c, .r480p, ab, false⟩ =
        ["-i", "input.mp4", "-c:v", "libx264", "-preset", p.toArg,
        "-crf", toString c, "-vf", "scale=-2:" ++ toString (480 : Nat), "-c:a", "aac",
        "-b:a", ab.toArg, "-movflags", "+faststart", "output.mp4"] := rfl
    rw [e]
    refine ⟨fun h => (nomatch h),
      fun _ => ⟨List.count_eq_zero.mp ?_, List.count_eq_zero.mp ?_⟩⟩ <;>
    · simp only [List.count_cons, List.count_nil, p7, p8, q7, q8, a7, a8]
      decide
  case true.source =>
    have e : buildArgs ⟨p, c, .source, ab, true⟩ =
        ["-i", "input.mp4", "-map_metadata", "0", "-movflags", "use_metadata_tags",
        "-c:v", "libx264", "-preset", p.toArg, "-crf", toString c,
        "-c:a", "aac", "-b:a", ab.toArg, "-movflags", "+faststart",
        "output.mp4"] := rfl
    rw [e]
    refine ⟨fun _ => ⟨?_, ?_, ?_,
      .cons _ (.cons _ (.cons₂ _ (.cons _ (.cons _ (.cons₂ _ (.cons₂ _ (.cons _ (.cons _ (.cons _ (.cons _ (.cons _ (.cons _ (.cons _ (.cons _ (.cons _ (.cons _ (.cons _ (.cons _ .slnil))))))))))))))))))⟩, fun h => (nomatch h)⟩ <;>
    · simp only [List.count_cons, List.count_nil, p1, p7, p8, q1, q7, q8, a1, a7, a8]
      decide
  case true.r1080p =>
    have e : buildArgs ⟨p, c, .r1080p, ab, true⟩ =
        ["-i", "input.mp4", "-map_metadata", "0", "-movflags", "use_metadata_tags",
        "-c:v", "libx264", "-preset", p.toArg, "-crf", toString c,
        "-vf", "scale=-2:" ++ toString (1080 : Nat), "-c:a", "aac", "-b:a", ab.toArg,
        "-movflags", "+faststart", "output.mp4"] := rfl
    rw [e]
    refine ⟨fun _ => ⟨?_, ?_, ?_,
      .cons _ (.cons _ (.cons₂ _ (.cons _ (.cons _ (.cons₂ _ (.cons₂ _ (.cons _ (.cons _ (.cons _ (.cons _ (.cons _ (.cons _ (.cons _ (.cons _ (.cons _ (.cons _ (.cons _ (.cons _ (.cons _ (.cons _ .slnil))))))))))))))))))))⟩, fun h => (nomatch h)⟩ <;>
    · simp only [List.count_cons, List.count_nil, p1, p7, p8, q1, q7, q8, a1, a7, a8]
      decide
  case true.r720p =>
    have e : buildArgs ⟨p, c, .r720p, ab, true⟩ =
        ["-i", "input.mp4", "-map_metadata", "0", "-movflags", "use_metadata_tags",
        "-c:v", "libx264", "-preset", p.toArg, "-crf", toString c,
        "-vf", "scale=-2:" ++ toString (720 : Nat), "-c:a", "aac", "-b:a", ab.toArg,
        "-movflags", "+faststart", "output.mp4"] := rfl
    rw [e]
    refine ⟨fun _ => ⟨?_, ?_, ?_,
      .cons _ (.cons _ (.cons₂ _ (.cons _ (.cons _ (.cons₂ _ (.cons₂ _ (.cons _ (.cons _ (.cons _ (.cons _ (.cons _ (.cons _ (.cons _ (.cons _ (.cons _ (.cons _ (.cons _ (.cons _ (.cons _ (.cons _ .slnil))))))))))))))))))))⟩, fun h => (nomatch h)⟩ <;>
    · simp only [List.count_cons, List.count_nil, p1, p7, p8, q1, q7, q8, a1, a7, a8]
      decide
  case true.r480p =>
    have e : buildArgs ⟨p, c, .r480p, ab, true⟩ =
        ["-i", "input.mp4", "-map_metadata", "0", "-movflags", "use_metadata_tags",
        "-c:v", "libx264", "-preset", p.toArg, "-crf", toString c,
        "-vf", "scale=-2:" ++ toString (480 : Nat), "-c:a", "aac", "-b:a", ab.toArg,
        "-movflags", "+faststart", "output.mp4"] := rfl
    rw [e]
    refine ⟨fun _ => ⟨?_, ?_, ?_,
      .cons _ (.cons _ (.cons₂ _ (.cons _ (.cons _ (.cons₂ _ (.cons₂ _ (.cons _ (.cons _ (.cons _ (.cons _ (.cons _ (.cons _ (.cons _ (.cons _ (.cons _ (.cons _ (.cons _ (.cons _ (.cons _ (.cons _ .slnil))))))))))))))))))))⟩, fun h => (nomatch h)⟩ <;>
    · simp only [List.count_cons, List.count_nil, p1, p7, p8, q1, q7, q8, a1, a7, a8]
      decide

/-! Section: C3: the scale filter -/

/-- Claim C3: For every valid `EncodeSettings` value: if `targetHeight`
(`resolution` in the source) is `source`, the argument list contains no
`-vf` flag and no scale-filter token at all; otherwise it contains the
`-vf` flag exactly once and exactly one scale-filter token, that token is
`scale=-2:<height>` with the requested height (1080, 720 or 480) and the
auto-width marker `-2`, and it is positioned after the (unique) codec and
quality flags. -/
theorem buildArgs_scale_filter (s : EncodeSettings) (hv : s.Valid) :
    (s.resolution = .source →
      "-vf" ∉ buildArgs s ∧ ∀ t ∈ buildArgs s, isScaleFilter t = false) ∧
    (s.resolution ≠ .source →
      (buildArgs s).count "-vf" = 1 ∧
      (buildArgs s).count ("scale=-2:" ++ toString s.resolution.height) = 1 ∧
      (buildArgs s).count "-c:v" = 1 ∧ (buildArgs s).count "-crf" = 1 ∧
      (∀ t ∈ buildArgs s, isScaleFilter t = true →
        t = "scale=-2:" ++ toString s.resolution.height) ∧
      (s.resolution = .r1080p → s.resolution.height = 1080) ∧
      (s.resolution = .r720p → s.resolution.height = 720) ∧
      (s.resolution = .r480p → s.resolution.height = 480) ∧
      List.Sublist ["-c:v", "-crf", "scale=-2:" ++ toString s.resolution.height]
        (buildArgs s)) := by
  obtain ⟨p, c, r, ab, m⟩ := s
  obtain ⟨hvl, hvr⟩ := hv
  have hP := (preset_toArg_facts p).1
  have hPs := (preset_toArg_facts p).2
  have hC := (crf_arg_facts c hvl hvr).1
  have hCs := (crf_arg_facts c hvl hvr).2
  have hB := (audio_toArg_facts ab).1
  have hBs := (audio_toArg_facts ab).2
  have p1 := hP "-c:v" (by decide)
  have p3 := hP "-crf" (by decide)
  have p9 := hP "-vf" (by decide)
  have pS1080 := hP "scale=-2:1080" (by decide)
  have pS720 := hP "scale=-2:720" (by decide)
  have pS480 := hP "scale=-2:480" (by decide)
  have q1 := hC "-c:v" (by decide)
  have q3 := hC "-crf" (by decide)
  have q9 := hC "-vf" (by decide)
  have qS1080 := hC "scale=-2:1080" (by decide)
  have qS720 := hC "scale=-2:720" (by decide)
  have qS480 := hC "scale=-2:480" (by decide)
  have a1 := hB "-c:v" (by decide)
  have a3 := hB "-crf" (by decide)
  have a9 := hB "-vf" (by decide)
  have aS1080 := hB "scale=-2:1080" (by decide)
  have aS720 := hB "scale=-2:720" (by decide)
  have aS480 := hB "scale=-2:480" (by decide)
  cases m <;> cases r
  case false.source =>
    have e : buildArgs ⟨p, c, .source, ab, false⟩ =
        ["-i", "input.mp4", "-c:v", "libx264", "-preset", p.toArg,
        "-crf", toString c, "-c:a", "aac", "-b:a", ab.toArg,
        "-movflags", "+faststart", "output.mp4"] := rfl
    rw [e]
    refine ⟨fun _ => ⟨List.count_eq_zero.mp ?_, ?_⟩, fun h => absurd rfl h⟩
    · simp only [List.count_cons, List.count_nil, p9, q9, a9]
      decide
    · simp only [List.forall_mem_cons]
      exact ⟨by decide, by decide, by decide, by decide, by decide, hPs, by decide, hCs, by decide, by decide, by decide, hBs, by decide, by decide, by decide, fun x hx => (nomatch hx)⟩
  case false.r1080p =>
    have e : buildArgs ⟨p, c, .r1080p, ab, false⟩ =
        ["-i", "input.mp4", "-c:v", "libx264", "-preset", p.toArg,
        "-crf", toString c, "-vf", "scale=-2:" ++ toString (1080 : Nat), "-c:a", "aac",
        "-b:a", ab.toArg, "-movflags", "+faststart", "output.mp4"] := rfl
    rw [e]
    rw [(by decide : "scale=-2:" ++ toString Resolution.r1080p.height = "scale=-2:1080")]
    rw [(by decide : "scale=-2:" ++ toString (1080 : Nat) = "scale=-2:1080")]
    refine ⟨fun h => (nomatch h), fun _ => ⟨?_, ?_, ?_, ?_, ?_,
      fun _ => rfl, fun h => (nomatch h), fun h => (nomatch h),
      .cons _ (.cons _ (.cons₂ _ (.cons _ (.cons _ (.cons _ (.cons₂ _ (.cons _ (.cons _ (.cons₂ _ (.cons _ (.cons _ (.cons _ (.cons _ (.cons _ (.cons _ (.cons _ .slnil))))))))))))))))⟩⟩
    · simp only [List.count_cons, List.count_nil, p9, q9, a9]
      decide
    · simp only [List.count_cons, List.count_nil, pS1080, qS1080, aS1080]
      decide
    · simp only [List.count_cons, List.count_nil, p1, q1, a1]
      decide
    · simp only [List.count_cons, List.count_nil, p3, q3, a3]
      decide
    · simp only [List.forall_mem_cons]
      exact ⟨by decide,
        by decide,
        by decide,
        by decide,
        by decide,
        fun h => (nomatch (hPs.symm.trans h)),
        by decide,
        fun h => (nomatch (hCs.symm.trans h)),
        by decide,
        fun _ => trivial,
        by decide,
        by decide,
        by decide,
        fun h => (nomatch (hBs.symm.trans h)),
        by decide,
        by decide,
        by decide,
        fun x hx => (nomatch hx)⟩
  case false.r720p =>
    have e : buildArgs ⟨p, c, .r720p, ab, false⟩ =
        ["-i", "input.mp4", "-c:v", "libx264", "-preset", p.toArg,
        "-crf", toString c, "-vf", "scale=-2:" ++ toString (720 : Nat), "-c:a", "aac",
        "-b:a", ab.toArg, "-movflags", "+faststart", "output.mp4"] := rfl
    rw [e]
    rw [(by decide : "scale=-2:" ++ toString Resolution.r720p.height = "scale=-2:720")]
    rw [(by decide : "scale=-2:" ++ toString (720 : Nat) = "scale=-2:720")]
    refine ⟨fun h => (nomatch h), fun _ => ⟨?_, ?_, ?_, ?_, ?_,
      fun h => (nomatch h), fun _ => rfl, fun h => (nomatch h),
      .cons _ (.cons _ (.cons₂ _ (.cons _ (.cons _ (.cons _ (.cons₂ _ (.cons _ (.cons _ (.cons₂ _ (.cons _ (.cons _ (.cons _ (.cons _ (.cons _ (.cons _ (.cons _ .slnil))))))))))))))))⟩⟩
    · simp only [List.count_cons, List.count_nil, p9, q9, a9]
      decide
    · simp only [List.count_cons, List.count_nil, pS720, qS720, aS720]
      decide
    · simp only [List.count_cons, List.count_nil, p1, q1, a1]
      decide
    · simp only [List.count_cons, List.count_nil, p3, q3, a3]
      decide
    · simp only [List.forall_mem_cons]
      exact ⟨by decide,
        by decide,
        by decide,
        by decide,
        by decide,
        fun h => (nomatch (hPs.symm.trans h)),
        by decide,
        fun h => (nomatch (hCs.symm.trans h)),
        by decide,
        fun _ => trivial,
        by decide,
        by decide,
        by decide,
        fun h => (nomatch (hBs.symm.trans h)),
        by decide,
        by decide,
        by decide,
        fun x hx => (nomatch hx)⟩
  case false.r480p =>
    have e : buildArgs ⟨p, c, .r480p, ab, false⟩ =
        ["-i", "input.mp4", "-c:v", "libx264", "-preset", p.toArg,
        "-crf", toString c, "-vf", "scale=-2:" ++ toString (480 : Nat), "-c:a", "aac",
        "-b:a", ab.toArg, "-movflags", "+faststart", "output.mp4"] := rfl
    rw [e]
    rw [(by decide : "scale=-2:" ++ toString Resolution.r480p.height = "scale=-2:480")]
    rw [(by decide : "scale=-2:" ++ toString (480 : Nat) = "scale=-2:480")]
    refine ⟨fun h => (nomatch h), fun _ => ⟨?_, ?_, ?_, ?_, ?_,
      fun h => (nomatch h), fun h => (nomatch h), fun _ => rfl,
      .cons _ (.cons _ (.cons₂ _ (.cons _ (.cons _ (.cons _ (.cons₂ _ (.cons _ (.cons _ (.cons₂ _ (.cons _ (.cons _ (.cons _ (.cons _ (.cons _ (.cons _ (.cons _ .slnil))))))))))))))))⟩⟩
    · simp only [List.count_cons, List.count_nil, p9, q9, a9]
      decide
    · simp only [List.count_cons, List.count_nil, pS480, qS480, aS480]
      decide
    · simp only [List.count_cons, List.count_nil, p1, q1, a1]
      decide
    · simp only [List.count_cons, List.count_nil, p3, q3, a3]
      decide
    · simp only [List.forall_mem_cons]
      exact ⟨by decide,
        by decide,
        by decide,
        by decide,
        by decide,
        fun h => (nomatch (hPs.symm.trans h)),
        by decide,
        fun h => (nomatch (hCs.symm.trans h)),
        by decide,
        fun _ => trivial,
        by decide,
        by decide,
        by decide,
        fun h => (nomatch (hBs.symm.trans h)),
        by decide,
        by decide,
        by decide,
        fun x hx => (nomatch hx)⟩
  case true.source =>
    have e : buildArgs ⟨p, c, .source, ab, true⟩ =
        ["-i", "input.mp4", "-map_metadata", "0", "-movflags", "use_metadata_tags",
        "-c:v", "libx264", "-preset", p.toArg, "-crf", toString c,
        "-c:a", "aac", "-b:a", ab.toArg, "-movflags", "+faststart",
        "output.mp4"] := rfl
    rw [e]
    refine ⟨fun _ => ⟨List.count_eq_zero.mp ?_, ?_⟩, fun h => absurd rfl h⟩
    · simp only [List.count_cons, List.count_nil, p9, q9, a9]
      decide
    · simp only [List.forall_mem_cons]
      exact ⟨by decide, by decide, by decide, by decide, by decide, by decide, by decide, by decide, by decide, hPs, by decide, hCs, by decide, by decide, by decide, hBs, by decide, by decide, by decide, fun x hx => (nomatch hx)⟩
  case true.r1080p =>
    have e : buildArgs ⟨p, c, .r1080p, ab, true⟩ =
        ["-i", "input.mp4", "-map_metadata", "0", "-movflags", "use_metadata_tags",
        "-c:v", "libx264", "-preset", p.toArg, "-crf", toString c,
        "-vf", "scale=-2:" ++ toString (1080 : Nat), "-c:a", "aac", "-b:a", ab.toArg,
        "-movflags", "+faststart", "output.mp4"] := rfl
    rw [e]
    rw [(by decide : "scale=-2:" ++ toString Resolution.r1080p.height = "scale=-2:1080")]
    rw [(by decide : "scale=-2:" ++ toString (1080 : Nat) = "scale=-2:1080")]
    refine ⟨fun h => (nomatch h), fun _ => ⟨?_, ?_, ?_, ?_, ?_,
      fun _ => rfl, fun h => (nomatch h), fun h => (nomatch h),
      .cons _ (.cons _ (.cons _ (.cons _ (.cons _ (.cons _ (.cons₂ _ (.cons _ (.cons _ (.cons _ (.cons₂ _ (.cons _ (.cons _ (.cons₂ _ (.cons _ (.cons _ (.cons _ (.cons _ (.cons _ (.cons _ (.cons _ .slnil))))))))))))))))))))⟩⟩
    · simp only [List.count_cons, List.count_nil, p9, q9, a9]
      decide
    · simp only [List.count_cons, List.count_nil, pS1080, qS1080, aS1080]
      decide
    · simp only [List.count_cons, List.count_nil, p1, q1, a1]
      decide
    · simp only [List.count_cons, List.count_nil, p3, q3, a3]
      decide
    · simp only [List.forall_mem_cons]
      exact ⟨by decide,
        by decide,
        by decide,
        by decide,
        by decide,
        by decide,
        by decide,
        by decide,
        by decide,
        fun h => (nomatch (hPs.symm.trans h)),
        by decide,
        fun h => (nomatch (hCs.symm.trans h)),
        by decide,
        fun _ => trivial,
        by decide,
        by decide,
        by decide,
        fun h => (nomatch (hBs.symm.trans h)),
        by decide,
        by decide,
        by decide,
        fun x hx => (nomatch hx)⟩
  case true.r720p =>
    have e : buildArgs ⟨p, c, .r720p, ab, true⟩ =
        ["-i", "input.mp4", "-map_metadata", "0", "-movflags", "use_metadata_tags",
        "-c:v", "libx264", "-preset", p.toArg, "-crf", toString c,
        "-vf", "scale=-2:" ++ toString (720 : Nat), "-c:a", "aac", "-b:a", ab.toArg,
        "-movflags", "+faststart", "output.mp4"] := rfl
    rw [e]
    rw [(by decide : "scale=-2:" ++ toString Resolution.r720p.height = "scale=-2:720")]
    rw [(by decide : "scale=-2:" ++ toString (720 : Nat) = "scale=-2:720")]
    refine ⟨fun h => (nomatch h), fun _ => ⟨?_, ?_, ?_, ?_, ?_,
      fun h => (nomatch h), fun _ => rfl, fun h => (nomatch h),
      .cons _ (.cons _ (.cons _ (.cons _ (.cons _ (.cons _ (.cons₂ _ (.cons _ (.cons _ (.cons _ (.cons₂ _ (.cons _ (.cons _ (.cons₂ _ (.cons _ (.cons _ (.cons _ (.cons _ (.cons _ (.cons _ (.cons _ .slnil))))))))))))))))))))⟩⟩
    · simp only [List.count_cons, List.count_nil, p9, q9, a9]
      decide
    · simp only [List.count_cons, List.count_nil, pS720, qS720, aS720]
      decide
    · simp only [List.count_cons, List.count_nil, p1, q1, a1]
      decide
    · simp only [List.count_cons, List.count_nil, p3, q3, a3]
      decide
    · simp only [List.forall_mem_cons]
      exact ⟨by decide,
        by decide,
        by decide,
        by decide,
        by decide,
        by decide,
        by decide,
        by decide,
        by decide,
        fun h => (nomatch (hPs.symm.trans h)),
        by decide,
        fun h => (nomatch (hCs.symm.trans h)),
        by decide,
        fun _ => trivial,
        by decide,
        by decide,
        by decide,
        fun h => (nomatch (hBs.symm.trans h)),
        by decide,
        by decide,
        by decide,
        fun x hx => (nomatch hx)⟩
  case true.r480p =>
    have e : buildArgs ⟨p, c, .r480p, ab, true⟩ =
        ["-i", "input.mp4", "-map_metadata", "0", "-movflags", "use_metadata_tags",
        "-c:v", "libx264", "-preset", p.toArg, "-crf", toString c,
        "-vf", "scale=-2:" ++ toString (480 : Nat), "-c:a", "aac", "-b:a", ab.toArg,
        "-movflags", "+faststart", "output.mp4"] := rfl
    rw [e]
    rw [(by decide : "scale=-2:" ++ toString Resolution.r480p.height = "scale=-2:480")]
    rw [(by decide : "scale=-2:" ++ toString (480 : Nat) = "scale=-2:480")]
    refine ⟨fun h => (nomatch h), fun _ => ⟨?_, ?_, ?_, ?_, ?_,
      fun h => (nomatch h), fun h => (nomatch h), fun _ => rfl,
      .cons _ (.cons _ (.cons _ (.cons _ (.cons _ (.cons _ (.cons₂ _ (.cons _ (.cons _ (.cons _ (.cons₂ _ (.cons _ (.cons _ (.cons₂ _ (.cons _ (.cons _ (.cons _ (.cons _ (.cons _ (.cons _ (.cons _ .slnil))))))))))))))))))))⟩⟩
    · simp only [List.count_cons, List.count_nil, p9, q9, a9]
      decide
    · simp only [List.count_cons, List.count_nil, pS480, qS480, aS480]
      decide
    · simp only [List.count_cons, List.count_nil, p1, q1, a1]
      decide
    · simp only [List.count_cons, List.count_nil, p3, q3, a3]
      decide
    · simp only [List.forall_mem_cons]
      exact ⟨by decide,
        by decide,
        by decide,
        by decide,
        by decide,
        by decide,
        by decide,
        by decide,
        by decide,
        fun h => (nomatch (hPs.symm.trans h)),
        by decide,
        fun h => (nomatch (hCs.symm.trans h)),
        by decide,
        fun _ => trivial,
        by decide,
        by decide,
        by decide,
        fun h => (nomatch (hBs.symm.trans h)),
        by decide,
        by decide,
        by decide,
        fun x hx => (nomatch hx)⟩

/-! Section: concrete witnesses for the translator theorems -/

/-- Witness: `buildArgs_flags_once_and_ordered` instantiated at the spec's
worked-example settings. -/
theorem buildArgs_flags_once_and_ordered_witness :
    EncodeSettings.Valid ⟨.medium, 23, .r720p, .k128, true⟩ ∧
    ((buildArgs ⟨.medium, 23, .r720p, .k128, true⟩).count "-c:v" = 1 ∧
     (buildArgs ⟨.medium, 23, .r720p, .k128, true⟩).count "-preset" = 1 ∧
     (buildArgs ⟨.medium, 23, .r720p, .k128, true⟩).count "-crf" = 1 ∧
     (buildArgs ⟨.medium, 23, .r720p, .k128, true⟩).count "-c:a" = 1 ∧
     (buildArgs ⟨.medium, 23, .r720p, .k128, true⟩).count "-b:a" = 1 ∧
     (buildArgs ⟨.medium, 23, .r720p, .k128, true⟩).count "+faststart" = 1 ∧
     List.Sublist ["-c:v", "-preset", "-crf", "-c:a", "-b:a", "+faststart"]
       (buildArgs ⟨.medium, 23, .r720p, .k128, true⟩) ∧
     (buildArgs ⟨.medium, 23, .r720p, .k128, true⟩).getLast? = some outputName) :=
  ⟨⟨by decide, by decide⟩,
   buildArgs_flags_once_and_ordered ⟨.medium, 23, .r720p, .k128, true⟩
     ⟨by decide, by decide⟩⟩

/-- Witness: `buildArgs_metadata_placement` instantiated at the spec's
worked-example settings. -/
theorem buildArgs_metadata_placement_witness :
    EncodeSettings.Valid ⟨.medium, 23, .r720p, .k128, true⟩ ∧
    ((EncodeSettings.copyMetadata ⟨.medium, 23, .r720p, .k128, true⟩ = true →
      (buildArgs ⟨.medium, 23, .r720p, .k128, true⟩).count "-map_metadata" = 1 ∧
      (buildArgs ⟨.medium, 23, .r720p, .k128, true⟩).count "use_metadata_tags" = 1 ∧
      (buildArgs ⟨.medium, 23, .r720p, .k128, true⟩).count "-c:v" = 1 ∧
      List.Sublist ["-map_metadata", "use_metadata_tags", "-c:v"]
        (buildArgs ⟨.medium, 23, .r720p, .k128, true⟩)) ∧
    (EncodeSettings.copyMetadata ⟨.medium, 23, .r720p, .k128, true⟩ = false →
      "-map_metadata" ∉ buildArgs ⟨.medium, 23, .r720p, .k128, true⟩ ∧
      "use_metadata_tags" ∉ buildArgs ⟨.medium, 23, .r720p, .k128, true⟩)) :=
  ⟨⟨by decide, by decide⟩,
   buildArgs_metadata_placement ⟨.medium, 23, .r720p, .k128, true⟩
     ⟨by decide, by decide⟩⟩

/-- Witness: `buildArgs_scale_filter` instantiated at the spec's
worked-example settings. -/
theorem buildArgs_scale_filter_witness :
    EncodeSettings.Valid ⟨.medium, 23, .r720p, .k128, true⟩ ∧
    ((EncodeSettings.resolution ⟨.medium, 23, .r720p, .k128, true⟩ = .source →
      "-vf" ∉ buildArgs ⟨.medium, 23, .r720p, .k128, true⟩ ∧
      ∀ t ∈ buildArgs ⟨.medium, 23, .r720p, .k128, true⟩, isScaleFilter t = false) ∧
    (EncodeSettings.resolution ⟨.medium, 23, .r720p, .k128, true⟩ ≠ .source →
      (buildArgs ⟨.medium, 23, .r720p, .k128, true⟩).count "-vf" = 1 ∧
      (buildArgs ⟨.medium, 23, .r720p, .k128, true⟩).count
        ("scale=-2:" ++ toString (EncodeSettings.resolution ⟨.medium, 23, .r720p, .k128, true⟩).height) = 1 ∧
      (buildArgs ⟨.medium, 23, .r720p, .k128, true⟩).count "-c:v" = 1 ∧
      (buildArgs ⟨.medium, 23, .r720p, .k128, true⟩).count "-crf" = 1 ∧
      (∀ t ∈ buildArgs ⟨.medium, 23, .r720p, .k128, true⟩, isScaleFilter t = true →
        t = "scale=-2:" ++ toString (EncodeSettings.resolution ⟨.medium, 23, .r720p, .k128, true⟩).height) ∧
      (EncodeSettings.resolution ⟨.medium, 23, .r720p, .k128, true⟩ = .r1080p →
        (EncodeSettings.resolution ⟨.medium, 23, .r720p, .k128, true⟩).height = 1080) ∧
      (EncodeSettings.resolution ⟨.medium, 23, .r720p, .k128, true⟩ = .r720p →
        (EncodeSettings.resolution ⟨.medium, 23, .r720p, .k128, true⟩).height = 720) ∧
      (EncodeSettings.resolution ⟨.medium, 23, .r720p, .k128, true⟩ = .r480p →
        (EncodeSettings.resolution ⟨.medium, 23, .r720p, .k128, true⟩).height = 480) ∧
      List.Sublist
        ["-c:v", "-crf",
         "scale=-2:" ++ toString (EncodeSettings.resolution ⟨.medium, 23, .r720p, .k128, true⟩).height]
        (buildArgs ⟨.medium, 23, .r720p, .k128, true⟩))) :=
  ⟨⟨by decide, by decide⟩,
   buildArgs_scale_filter ⟨.medium, 23, .r720p, .k128, true⟩
     ⟨by decide, by decide⟩⟩

/-! Section: C4: bounds on the reported progress -/

/-- Claim C4, counterexample to the claim as stated: The progress handler
clamps only from above (`Math.min(100, …)` with no lower clamp): an
explicit progress event with payload `-1` drives the reported progress to
`-100`, outside `[0, 100]`; and an explicit payload `1` reports `100`
during encoding, before any successful completion. -/
theorem progress_claim_counterexample :
    (applyEvents [EncodingEvent.progress (some (-1))]
        initialEventState).progress = -100 ∧
    ¬(0 ≤ (-100 : ℚ)) ∧
    (applyEvents [EncodingEvent.progress (some 1)]
        initialEventState).progress = 100 := by
  refine ⟨?_, by norm_num, ?_⟩ <;>
  · simp only [applyEvents, List.foldl, applyEvent, onProgress, initialEventState,
      jsRound, jsMin]
    norm_num

/-- Claim C4, amended: If every explicit progress payload `q` is
nonnegative and rounds below 100 (`Math.round(100·q) ≤ 99`, i.e.
`q < 0.995`), then after any sequence of progress and log events the
reported progress lies in `[0, 100)` — in particular it is never `100` —
and the success path then sets it to `100`. -/
theorem progress_bounds_tame (events : List EncodingEvent)
    (h : ∀ e ∈ events, payloadOk e) :
    0 ≤ (applyEvents events initialEventState).progress ∧
    (applyEvents events initialEventState).progress < 100 ∧
    (onSuccess (applyEvents events initialEventState)).progress = 100 := by
  obtain ⟨h0, h1⟩ :=
    applyEvents_progress_inv events initialEventState h
      (by norm_num [initialEventState]) (by norm_num [initialEventState])
  exact ⟨h0, h1, rfl⟩

/-- Witness: `progress_bounds_tame` at a concrete event sequence. -/
theorem progress_bounds_tame_witness :
    (∀ e ∈ [EncodingEvent.progress (some (1 / 2)),
            EncodingEvent.log "frame=1 time=00:00:01.00 bitrate=2"],
        payloadOk e) ∧
    (0 ≤ (applyEvents [EncodingEvent.progress (some (1 / 2)),
            EncodingEvent.log "frame=1 time=00:00:01.00 bitrate=2"]
            initialEventState).progress ∧
      (applyEvents [EncodingEvent.progress (some (1 / 2)),
            EncodingEvent.log "frame=1 time=00:00:01.00 bitrate=2"]
            initialEventState).progress < 100 ∧
      (onSuccess (applyEvents [EncodingEvent.progress (some (1 / 2)),
            EncodingEvent.log "frame=1 time=00:00:01.00 bitrate=2"]
            initialEventState)).progress = 100) := by
  have hpay : ∀ e ∈ [EncodingEvent.progress (some (1 / 2)),
      EncodingEvent.log "frame=1 time=00:00:01.00 bitrate=2"], payloadOk e := by
    intro e he
    simp only [List.mem_cons, List.not_mem_nil, or_false] at he
    rcases he with rfl | rfl
    · exact ⟨by norm_num, by norm_num [jsRound]⟩
    · trivial
  exact ⟨hpay, progress_bounds_tame _ hpay⟩

/-! Section: C5: the timestamp heuristic never pushes progress past 95 -/

/-- Claim C5: From any reachable progress value below 95, any number of
heuristic nudges leaves the progress at most 95; and a nudge applied at a
value of 95 or more leaves the value unchanged. -/
theorem heuristic_nudges_capped (events : List EncodingEvent) (n : ℕ) :
    ((applyEvents events initialEventState).progress < 95 →
      nudge^[n] (applyEvents events initialEventState).progress ≤ 95) ∧
    (95 ≤ (applyEvents events initialEventState).progress →
      nudge (applyEvents events initialEventState).progress =
        (applyEvents events initialEventState).progress) := by
  constructor
  · intro h
    exact nudge_iter_le n _
      (applyEvents_halfInt events initialEventState
        ⟨0, by norm_num [initialEventState]⟩) h.le
  · intro h
    exact nudge_of_ge _ (not_lt.mpr h)

/-- Witness: `heuristic_nudges_capped` at concrete event sequences, once
below 95 (the empty sequence, progress 0) and once at or above 95 (an
explicit payload 1, progress 100). -/
theorem heuristic_nudges_capped_witness :
    nudge^[3] (applyEvents [] initialEventState).progress ≤ 95 ∧
    nudge (applyEvents [EncodingEvent.progress (some 1)]
        initialEventState).progress =
      (applyEvents [EncodingEvent.progress (some 1)]
        initialEventState).progress :=
  ⟨(heuristic_nudges_capped [] 3).1
      (by norm_num [applyEvents, List.foldl, initialEventState]),
   (heuristic_nudges_capped [EncodingEvent.progress (some 1)] 0).2
      (by simp only [applyEvents, List.foldl, applyEvent, onProgress,
            initialEventState, jsRound, jsMin]
          norm_num)⟩

/-! Section: C6: the log buffer cap -/

/-- Claim C6: After any sequence of events the log buffer holds at most 200
entries, and appending to a buffer holding exactly 200 entries evicts
exactly the oldest entry while preserving the order of the rest. -/
theorem logBuffer_capped_and_evicts (events : List EncodingEvent)
    (buf : List String) (m : String) :
    (applyEvents events initialEventState).logLines.length ≤ 200 ∧
    (buf.length = 200 → appendLog buf m = buf.tail ++ [m]) := by
  constructor
  · exact applyEvents_logLines_le events initialEventState
      (by simp [initialEventState])
  · intro h
    have hlen : (buf ++ [m]).length - 200 = 1 := by simp [h]
    rw [show appendLog buf m = (buf ++ [m]).drop ((buf ++ [m]).length - 200)
        from rfl,
      hlen, List.drop_append_of_le_length (by omega), List.drop_one]

/-- Witness: `logBuffer_capped_and_evicts` at a concrete event sequence
and a concrete full buffer. -/
theorem logBuffer_capped_and_evicts_witness :
    (applyEvents [EncodingEvent.log "a"] initialEventState).logLines.length
      ≤ 200 ∧
    appendLog (List.replicate 200 "x") "y" =
      (List.replicate 200 "x").tail ++ ["y"] :=
  ⟨(logBuffer_capped_and_evicts [EncodingEvent.log "a"] [] "z").1,
   (logBuffer_capped_and_evicts [] (List.replicate 200 "x") "y").2
      (by rw [List.length_replicate])⟩

/-! Section: C9: NaN progress payloads are ignored -/

/-- Claim C9: A `progress` event whose payload is `NaN` (the `none` payload)
leaves the handler state — in particular the reported progress — entirely
unchanged: `Number.isNaN` guards the update, so the event is silently
ignored. -/
theorem onProgress_nan_ignored (st : JobEventState) :
    onProgress st none = st := rfl

/-! Section: C7: no second concurrent invocation -/

/-- Claim C7: While a job is encoding (`processing = true`) a start request
is rejected: the Start button is disabled, so a click leaves the state
unchanged and no second invocation begins. -/
theorem start_rejected_while_processing (st : AppState)
    (h : st.processing = true) : clickStart st = st := by
  simp [clickStart, startDisabled, h]

/-- Witness: a click during encoding at a concrete state. -/
theorem start_rejected_while_processing_witness :
    AppState.processing ⟨true, true, true, true, false, 42, ["line"]⟩ = true ∧
    clickStart ⟨true, true, true, true, false, 42, ["line"]⟩ =
      ⟨true, true, true, true, false, 42, ["line"]⟩ :=
  ⟨rfl, start_rejected_while_processing _ rfl⟩

/-! Section: C8: what a new run resets -/

/-- Claim C8, counterexample to the claim as stated: Re-running from a done
state (`processing = false`, a previous result, a non-empty log) begins a
new run (`processing` becomes true) but does not reset the log buffer:
`start` resets only `outputBlob` and `progress`; the log is cleared only
by `onDrop`. -/
theorem rerun_keeps_log_counterexample :
    (clickStart ⟨true, true, true, false, true, 100, ["old"]⟩).processing
      = true ∧
    (clickStart ⟨true, true, true, false, true, 100, ["old"]⟩).logLines
      = ["old"] ∧
    (["old"] : List String) ≠ [] := by
  refine ⟨rfl, rfl, by simp⟩

/-- Claim C8, amended: Picking a new file (`onDrop`) resets the progress,
the log buffer and the previous result; re-running via the Start button
resets the progress and the previous result and re-enters encoding, but
leaves the log buffer unchanged. (`hwf`: the encoder handle is set
whenever the ready flag is, which the load effect guarantees.) -/
theorem new_run_resets (st : AppState)
    (hwf : st.ffmpegReady = true → st.ffmpegRefSet = true) :
    ((onDrop st).progress = 0 ∧ (onDrop st).logLines = [] ∧
      (onDrop st).hasOutput = false) ∧
    (startDisabled st = false →
      (clickStart st).progress = 0 ∧ (clickStart st).hasOutput = false ∧
      (clickStart st).processing = true ∧
      (clickStart st).logLines = st.logLines) := by
  refine ⟨⟨rfl, rfl, rfl⟩, ?_⟩
  intro h
  have h2 := h
  simp only [startDisabled, Bool.or_eq_false_iff, Bool.not_eq_false'] at h2
  obtain ⟨⟨hready, hfile⟩, hproc⟩ := h2
  have href : st.ffmpegRefSet = true := hwf hready
  simp [clickStart, startDisabled, startBody, hready, hfile, hproc, href]

/-- Witness: `new_run_resets` at a concrete done state. -/
theorem new_run_resets_witness :
    ((onDrop ⟨true, true, true, false, true, 100, ["old"]⟩).progress = 0 ∧
      (onDrop ⟨true, true, true, false, true, 100, ["old"]⟩).logLines = [] ∧
      (onDrop ⟨true, true, true, false, true, 100, ["old"]⟩).hasOutput
        = false) ∧
    ((clickStart ⟨true, true, true, false, true, 100, ["old"]⟩).progress
        = 0 ∧
      (clickStart ⟨true, true, true, false, true, 100, ["old"]⟩).hasOutput
        = false ∧
      (clickStart ⟨true, true, true, false, true, 100, ["old"]⟩).processing
        = true ∧
      (clickStart ⟨true, true, true, false, true, 100, ["old"]⟩).logLines =
        AppState.logLines ⟨true, true, true, false, true, 100, ["old"]⟩) :=
  ⟨(new_run_resets ⟨true, true, true, false, true, 100, ["old"]⟩
      (fun _ => rfl)).1,
   (new_run_resets ⟨true, true, true, false, true, 100, ["old"]⟩
      (fun _ => rfl)).2 rfl⟩

/-! Section: C10: the guarded cleanup -/

/-- Claim C10: On both the done path and the failed path the same guarded
cleanup block runs: the input deletion is always attempted first; if it
raises, the output deletion is never attempted; if it succeeds, the output
deletion is attempted next; the catch always swallows, so the block
finishes without an exception, and the user-visible alert depends only on
the exec outcome, never on cleanup failures. -/
theorem cleanup_order_and_swallowed (execOk : Bool) (ok : String → Bool) :
    (finishJob execOk ok).cleanupAttempts.head? = some inputName ∧
    (ok inputName = false →
      (finishJob execOk ok).cleanupAttempts = [inputName]) ∧
    (ok inputName = true →
      (finishJob execOk ok).cleanupAttempts = [inputName, outputName]) ∧
    (finishJob execOk ok).cleanupResult = .ok () ∧
    (finishJob execOk ok).alertShown = !execOk := by
  by_cases h1 : ok inputName = true
  · by_cases h2 : ok outputName = true <;>
      simp [finishJob, cleanupBlock, catchFs, bindFs, deleteFile, pureFs, h1, h2]
  · simp only [Bool.not_eq_true] at h1
    simp [finishJob, cleanupBlock, catchFs, bindFs, deleteFile, pureFs, h1]

/-- Witness: `cleanup_order_and_swallowed` on the failed path, once with a
virtual FS whose deletions raise and once with one whose deletions
succeed. -/
theorem cleanup_order_and_swallowed_witness :
    (finishJob false (fun _ => false)).cleanupAttempts = [inputName] ∧
    (finishJob false (fun _ => true)).cleanupAttempts
      = [inputName, outputName] ∧
    (finishJob false (fun _ => false)).cleanupResult = .ok () ∧
    (finishJob false (fun _ => false)).alertShown = !false :=
  ⟨(cleanup_order_and_swallowed false (fun _ => false)).2.1 rfl,
   (cleanup_order_and_swallowed false (fun _ => true)).2.2.1 rfl,
   (cleanup_order_and_swallowed false (fun _ => false)).2.2.2.1,
   (cleanup_order_and_swallowed false (fun _ => false)).2.2.2.2⟩

end MP4Compressor
